import Mathlib

/-!
Verification development for the SimpleMemJs hybrid memory index and
adaptive retrieval pipeline.

The definitions below are a shallow embedding of the TypeScript sources:

* `src/utils/similarity.ts` — cosine similarity, the BM25 scorer and the
  hybrid score combination;
* `src/stages/indexing.ts` — the `HybridIndex` class (unit map, the four
  search modes, `matchesFilter`);
* the retrieval stage (`HybridRetriever.reflectionSearch`,
  `checkAdequacy`, `generateAdditionalQueries`) and the
  `AnswerGenerator.generate` method.

JavaScript numbers are modelled as rationals (`ℚ`).  External runtime
primitives that are not repository code (`Math.sqrt`, `Math.log`,
`JSON.parse`, `dayjs` timestamp parsing) are supplied as parameters
bundled in `JsPrims`; every theorem quantifies over them.  JavaScript
`Map` objects are modelled as association lists with in-place update
(`jsMapSet`), which reproduces the insertion-order iteration semantics
of the runtime.  `Array.prototype.sort` with the comparator
`(a, b) => b.score - a.score` is modelled by the stable descending
insertion sort `stableSortDesc` (any stable sort realizes the same
output on a total preorder comparator).  Exceptions are modelled with
`Except`.
-/

/- Rational arithmetic is `@[irreducible]` in the library; the concrete
evaluation theorems below need it to unfold under `decide` and `rfl`. -/
attribute [local semireducible] Rat.add Rat.mul Rat.inv Rat.sub

namespace SimpleMem

/-! ## JavaScript runtime primitives -/

/-- JavaScript `Map.prototype.set`: overwrite in place if the key exists
(keeping its position in insertion order), else append. -/
def jsMapSet {κ α : Type} [DecidableEq κ] : List (κ × α) → κ → α → List (κ × α)
  | [], k, v => [(k, v)]
  | (k', v') :: rest, k, v =>
      if k' = k then (k, v) :: rest else (k', v') :: jsMapSet rest k v

/-- JavaScript `Map.prototype.get` (first matching key). -/
def jsMapGet {κ α : Type} [DecidableEq κ] : List (κ × α) → κ → Option α
  | [], _ => none
  | (k', v') :: rest, k => if k' = k then some v' else jsMapGet rest k

/-- `map.get(k) ?? d`. -/
def jsMapGetD {κ α : Type} [DecidableEq κ] (m : List (κ × α)) (k : κ) (d : α) : α :=
  (jsMapGet m k).getD d

/-- JavaScript `Map.prototype.delete`. -/
def jsMapDelete {κ α : Type} [DecidableEq κ] : List (κ × α) → κ → List (κ × α)
  | [], _ => []
  | (k', v') :: rest, k =>
      if k' = k then rest else (k', v') :: jsMapDelete rest k

/-- `Array.from(map.keys())`, in insertion order. -/
def jsMapKeys {κ α : Type} (m : List (κ × α)) : List κ := m.map Prod.fst

/-- `Array.from(map.values())`, in insertion order. -/
def jsMapValues {κ α : Type} (m : List (κ × α)) : List α := m.map Prod.snd

/-- JavaScript `Set` construction from a list: keep the first occurrence
of every element, preserving insertion order. -/
def dedupFirstAux {α : Type} [DecidableEq α] (seen : List α) : List α → List α
  | [] => []
  | x :: xs =>
      if x ∈ seen then dedupFirstAux seen xs
      else x :: dedupFirstAux (x :: seen) xs

def dedupFirst {α : Type} [DecidableEq α] (l : List α) : List α :=
  dedupFirstAux [] l

/-- `String.prototype.toLowerCase` (ASCII model). -/
def lowerStr (s : String) : String := ⟨s.data.map Char.toLower⟩

/-- Whether `needle` is a prefix of `hay`. -/
def listStartsWith {α : Type} [DecidableEq α] : List α → List α → Bool
  | [], _ => true
  | _ :: _, [] => false
  | a :: as, b :: bs => a = b && listStartsWith as bs

/-- Whether `needle` occurs contiguously inside `hay`. -/
def listHasInfix {α : Type} [DecidableEq α] (needle : List α) : List α → Bool
  | [] => needle.isEmpty
  | c :: cs => listStartsWith needle (c :: cs) || listHasInfix needle cs

/-- `hay.includes(sub)`. -/
def strIncludes (hay sub : String) : Bool := listHasInfix sub.data hay.data

/-- Stable insert for a descending sort: the new element goes before the
first element whose key it ties or beats.  Since the new element is the
one that occurred *earlier* in the original list (see `stableSortDesc`),
ties keep their original relative order. -/
def insertByGe {α : Type} (key : α → ℚ) (x : α) : List α → List α
  | [] => [x]
  | y :: ys => if key y ≤ key x then x :: y :: ys else y :: insertByGe key x ys

/-- Stable descending sort by a rational key; models
`array.sort((a, b) => key(b) - key(a))` (stable per the ECMAScript
specification). -/
def stableSortDesc {α : Type} (key : α → ℚ) : List α → List α
  | [] => []
  | x :: xs => insertByGe key x (stableSortDesc key xs)

/-- A JavaScript JSON value, the possible results of `JSON.parse`. -/
inductive JsVal : Type
  | null : JsVal
  | bool (b : Bool) : JsVal
  | num (q : ℚ) : JsVal
  | str (s : String) : JsVal
  | arr (xs : List JsVal) : JsVal
  | obj (fields : List (String × JsVal)) : JsVal

/-- External runtime primitives (not repository code): `Math.log`,
`Math.sqrt`, `JSON.parse`, and `dayjs` timestamp parsing (`dayjs(s)`
modelled as an optional rational instant, `none` for an invalid date). -/
structure JsPrims : Type where
  log : ℚ → ℚ
  sqrt : ℚ → ℚ
  parseJSON : String → Except String JsVal
  parseTime : String → Option ℚ

/-! ## `src/utils/similarity.ts` -/

/-- `cosineSimilarity` from `src/utils/similarity.ts`: throws on a
dimension mismatch, returns `0` when either norm is zero, else
`dot / (‖a‖·‖b‖)`; `Math.sqrt` is the `sqrt` parameter. -/
def cosineSimilarity (sqrt : ℚ → ℚ) (a b : List ℚ) : Except String ℚ :=
  if a.length ≠ b.length then
    .error "Vector dimensions must match"
  else
    let dotProduct := ((a.zip b).map fun p => p.1 * p.2).sum
    let normA := sqrt ((a.map fun x => x * x).sum)
    let normB := sqrt ((b.map fun x => x * x).sum)
    if normA = 0 ∨ normB = 0 then .ok 0
    else .ok (dotProduct / (normA * normB))

/-- JavaScript `\w` (ASCII model): letters, digits, underscore. -/
def isWordChar (c : Char) : Bool := c.isAlphanum || c = '_'

/-- JavaScript `\s` (ASCII model). -/
def isSpaceChar (c : Char) : Bool :=
  c = ' ' || c = '\t' || c = '\n' || c = '\r' || c = '\x0b' || c = '\x0c'

/-- `String.prototype.trim` (helper): strip leading whitespace. -/
def dropLeadingWs : List Char → List Char
  | [] => []
  | c :: cs => if isSpaceChar c then dropLeadingWs cs else c :: cs

/-- `String.prototype.trim`: strip leading and trailing whitespace. -/
def jsTrim (s : String) : String :=
  ⟨(dropLeadingWs ((dropLeadingWs s.data).reverse)).reverse⟩

/-- Accumulating splitter: split on whitespace runs, dropping empty
tokens (`split(/\s+/).filter(t => t.length > 0)`). -/
def splitWsAux : List Char → List Char → List String
  | cur, [] => if cur.isEmpty then [] else [⟨cur.reverse⟩]
  | cur, c :: cs =>
      if isSpaceChar c then
        if cur.isEmpty then splitWsAux [] cs
        else (⟨cur.reverse⟩ : String) :: splitWsAux [] cs
      else splitWsAux (c :: cur) cs

/-- `BM25Scorer.tokenize`: lowercase, replace every character that is
neither a word character nor whitespace by a space, split on
whitespace, drop empties. -/
def tokenize (text : String) : List String :=
  splitWsAux []
    ((text.data.map Char.toLower).map fun c =>
      if isWordChar c || isSpaceChar c then c else ' ')

/-- The state of a `BM25Scorer` instance. -/
structure BM25Scorer : Type where
  k1 : ℚ
  b : ℚ
  documents : List (List String)
  avgDocLength : ℚ
  idf : List (String × ℚ)

/-- `new BM25Scorer()` with the default parameters `k1 = 1.2`,
`b = 0.75`. -/
def BM25Scorer.new : BM25Scorer :=
  { k1 := 6/5, b := 3/4, documents := [], avgDocLength := 0, idf := [] }

/-- Document frequency map built in `addDocuments` (per document, each
distinct term counted once). -/
def docFreqOf (documents : List (List String)) : List (String × ℕ) :=
  documents.foldl
    (fun m doc =>
      (dedupFirst doc).foldl (fun m t => jsMapSet m t (jsMapGetD m t 0 + 1)) m)
    []

/-- `BM25Scorer.addDocuments`: retokenize the whole collection, recompute
the average document length (`totalLength / N || 1`, hence `1` for an
empty or all-empty corpus), and set the smoothed idf of every term of
the new corpus (`Math.log` is the `jsLog` parameter; entries for terms
of a previous corpus are overwritten only if the term reappears, exactly
as in the source, which never clears `this.idf`). -/
def BM25Scorer.addDocuments (jsLog : ℚ → ℚ) (st : BM25Scorer)
    (docs : List String) : BM25Scorer :=
  let documents := docs.map tokenize
  let totalLength := (documents.map List.length).sum
  let avgDocLength : ℚ :=
    if documents.length = 0 ∨ totalLength = 0 then 1
    else (totalLength : ℚ) / (documents.length : ℚ)
  let n := documents.length
  let idf := (docFreqOf documents).foldl
    (fun m p =>
      jsMapSet m p.1
        (jsLog (((n : ℚ) - (p.2 : ℚ) + 1/2) / ((p.2 : ℚ) + 1/2) + 1)))
    st.idf
  { st with documents := documents, avgDocLength := avgDocLength, idf := idf }

/-- Term-frequency map of one tokenized document. -/
def termFreqOf (doc : List String) : List (String × ℕ) :=
  doc.foldl (fun m t => jsMapSet m t (jsMapGetD m t 0 + 1)) []

/-- The amount one query term adds to one document's BM25 score in
`BM25Scorer.score`: `idf · tf·(k1+1) / (tf + k1·(1 − b + b·docLen/avg))`
when `tf > 0` and `idf > 0`, else nothing. -/
def bm25TermScore (k1 b idfv : ℚ) (tf docLength : ℕ) (avg : ℚ) : ℚ :=
  if 0 < tf ∧ 0 < idfv then
    idfv * ((tf : ℚ) * (k1 + 1)) /
      ((tf : ℚ) + k1 * (1 - b + b * ((docLength : ℚ) / avg)))
  else 0

/-- `BM25Scorer.score`: one score per indexed document, summing
`bm25TermScore` over the (possibly repeating) query terms. -/
def BM25Scorer.score (st : BM25Scorer) (query : String) : List ℚ :=
  let queryTerms := tokenize query
  st.documents.map fun doc =>
    let termFreq := termFreqOf doc
    queryTerms.foldl
      (fun acc term =>
        acc +
          bm25TermScore st.k1 st.b (jsMapGetD st.idf term 0)
            (jsMapGetD termFreq term 0) doc.length st.avgDocLength)
      0

/-- `BM25Scorer.topK`: score, keep strictly positive scores, sort
descending, return at most `k` `(index, score)` pairs. -/
def BM25Scorer.topK (st : BM25Scorer) (query : String) (k : ℕ) :
    List (ℕ × ℚ) :=
  ((stableSortDesc (fun p => p.2)
      (((st.score query).enum).filter fun p => 0 < p.2))).take k

/-- `computeHybridScore` from `src/utils/similarity.ts`:
`α·semantic + β·lexical + (γ if the symbolic constraints match else 0)`. -/
def computeHybridScore (semanticScore lexicalScore : ℚ)
    (matchesConstraints : Bool) (alpha beta gamma : ℚ) : ℚ :=
  let symbolicBonus := if matchesConstraints then gamma else 0
  alpha * semanticScore + beta * lexicalScore + symbolicBonus

/-! ## `src/stages/indexing.ts` -/

/-- A memory unit (`MemoryUnit` in `src/types/index.ts`): optional
fields are `Option`s, the embedding is an optional rational vector. -/
structure MemoryUnit : Type where
  id : String
  content : String
  keywords : List String
  persons : List String
  entities : List String
  timestamp : Option String
  location : Option String
  topic : Option String
  embedding : Option (List ℚ)
deriving DecidableEq

inductive MatchType : Type
  | semantic | lexical | symbolic | hybrid
deriving DecidableEq

structure SearchResult : Type where
  unit : MemoryUnit
  score : ℚ
  matchType : MatchType
deriving DecidableEq

/-- `filter.timestampRange` (both bounds optional). -/
structure TimestampRange : Type where
  start : Option String
  stop : Option String
deriving DecidableEq

/-- A `QueryFilter`. -/
structure QueryFilter : Type where
  persons : Option (List String)
  entities : Option (List String)
  timestampRange : Option TimestampRange
  location : Option String
  topic : Option String
deriving DecidableEq

structure IndexingConfig : Type where
  semanticTopK : ℕ
  keywordTopK : ℕ
  structuredTopK : ℕ
  semanticWeight : ℚ
  lexicalWeight : ℚ
  symbolicWeight : ℚ
deriving DecidableEq

def DEFAULT_INDEXING_CONFIG : IndexingConfig :=
  { semanticTopK := 25, keywordTopK := 5, structuredTopK := 5,
    semanticWeight := 3/5, lexicalWeight := 3/10, symbolicWeight := 1/10 }

/-- Truthiness of an optional JavaScript string (`undefined` and `""`
are falsy). -/
def strOptTruthy : Option String → Bool
  | none => false
  | some s => !s.isEmpty

/-- `isWithinRange` from `src/utils/temporal.ts`: `false` when the
unit's timestamp does not parse; otherwise inclusive bounds, where a
comparison against an invalid bound is `false` (dayjs semantics). -/
def isWithinRange (parseTime : String → Option ℚ)
    (timestamp start stop : String) : Bool :=
  match parseTime timestamp with
  | none => false
  | some t =>
      (match parseTime start with
       | some s => decide (s ≤ t)
       | none => false) &&
      (match parseTime stop with
       | some e => decide (t ≤ e)
       | none => false)

/-- `HybridIndex.matchesFilter`: conjunctive predicate over persons,
entities, timestamp range, location and topic.  Every clause is guarded
by JavaScript truthiness of *both* the filter field and the unit field,
so an absent (or empty-string) unit field skips that clause. -/
def matchesFilter (P : JsPrims) (unit : MemoryUnit) (filter : QueryFilter) :
    Bool :=
  (match filter.persons with
   | some ps =>
       if 0 < ps.length then
         ps.any fun p =>
           unit.persons.any fun up => strIncludes (lowerStr up) (lowerStr p)
       else true
   | none => true) &&
  (match filter.entities with
   | some es =>
       if 0 < es.length then
         es.any fun e =>
           unit.entities.any fun ue => strIncludes (lowerStr ue) (lowerStr e)
       else true
   | none => true) &&
  (match filter.timestampRange, unit.timestamp with
   | some r, some t =>
       if !t.isEmpty then
         match r.start, r.stop with
         | some s, some e =>
             if !s.isEmpty && !e.isEmpty then isWithinRange P.parseTime t s e
             else true
         | _, _ => true
       else true
   | _, _ => true) &&
  (match filter.location, unit.location with
   | some fl, some ul =>
       if !fl.isEmpty && !ul.isEmpty then
         strIncludes (lowerStr ul) (lowerStr fl)
       else true
   | _, _ => true) &&
  (match filter.topic, unit.topic with
   | some ft, some ut =>
       if !ft.isEmpty && !ut.isEmpty then
         strIncludes (lowerStr ut) (lowerStr ft)
       else true
   | _, _ => true)

/-- The embedding collaborator (`EmbeddingProvider.embed`): may fail,
else returns one vector per input text. -/
def EmbedFn : Type := List String → Except String (List (List ℚ))

/-- The mutable state of a `HybridIndex` instance. -/
structure HybridIndex : Type where
  units : List (String × MemoryUnit)
  bm25 : BM25Scorer
  config : IndexingConfig
  needsRebuild : Bool

/-- Attach freshly computed embeddings positionally to the units that
lacked one (`unitsNeedingEmbeddings[i].embedding = embeddings[i]`; an
out-of-range index leaves the embedding absent, as assigning
`undefined` would). -/
def attachEmbeddings (embs : List (List ℚ)) : List MemoryUnit → ℕ → List MemoryUnit
  | [], _ => []
  | u :: us, i =>
      if u.embedding.isNone then
        { u with embedding := embs.get? i } :: attachEmbeddings embs us (i + 1)
      else u :: attachEmbeddings embs us i

/-- `HybridIndex.addUnits`: batch-embed the units lacking an embedding
(one collaborator call; a collaborator failure propagates before any
state change), then upsert every unit of the call into the map and mark
the lexical index dirty. -/
def addUnits (embed : EmbedFn) (st : HybridIndex) (units : List MemoryUnit) :
    Except String HybridIndex :=
  let unitsNeedingEmbeddings := units.filter fun u => u.embedding.isNone
  if 0 < unitsNeedingEmbeddings.length then
    match embed (unitsNeedingEmbeddings.map fun u => u.content) with
    | .error e => .error e
    | .ok embeddings =>
        let attached := attachEmbeddings embeddings units 0
        .ok { st with
                units := attached.foldl (fun m u => jsMapSet m u.id u) st.units,
                needsRebuild := true }
  else
    .ok { st with
            units := units.foldl (fun m u => jsMapSet m u.id u) st.units,
            needsRebuild := true }

/-- The object state after an `addUnits` call, whether or not it threw:
a throw happens before any mutation, so the state is unchanged. -/
def addUnitsRun (embed : EmbedFn) (st : HybridIndex)
    (units : List MemoryUnit) : HybridIndex :=
  match addUnits embed st units with
  | .ok st' => st'
  | .error _ => st

/-- `HybridIndex.removeUnit`. -/
def removeUnit (st : HybridIndex) (id : String) : HybridIndex :=
  { st with units := jsMapDelete st.units id, needsRebuild := true }

/-- `HybridIndex.rebuildLexicalIndex`: feed the contents, in enumeration
order, to the BM25 engine and clear the dirty flag. -/
def rebuildLexicalIndex (P : JsPrims) (st : HybridIndex) : HybridIndex :=
  { st with
      bm25 := st.bm25.addDocuments P.log ((jsMapValues st.units).map fun u => u.content),
      needsRebuild := false }

/-- `HybridIndex.getAllUnits`. -/
def getAllUnits (st : HybridIndex) : List MemoryUnit := jsMapValues st.units

/-- `HybridIndex.clear`. -/
def clearIndex (st : HybridIndex) : HybridIndex :=
  { st with units := [], bm25 := BM25Scorer.new, needsRebuild := false }

/-- The unit-scoring loop of `semanticSearch`: units without an
embedding are skipped silently; a cosine failure (dimension mismatch)
propagates. -/
def scoreUnitsSemantic (sqrt : ℚ → ℚ) (queryEmbedding : List ℚ) :
    List MemoryUnit → Except String (List SearchResult)
  | [] => .ok []
  | u :: us =>
      match u.embedding with
      | none => scoreUnitsSemantic sqrt queryEmbedding us
      | some emb =>
          match cosineSimilarity sqrt queryEmbedding emb with
          | .error e => .error e
          | .ok s =>
              (scoreUnitsSemantic sqrt queryEmbedding us).map
                (⟨u, s, .semantic⟩ :: ·)

/-- `HybridIndex.semanticSearch`: embed the query (one collaborator
call), score every embedded unit by cosine similarity, sort descending,
truncate. -/
def semanticSearch (P : JsPrims) (embed : EmbedFn) (st : HybridIndex)
    (query : String) (topK : Option ℕ) : Except String (List SearchResult) :=
  let k := topK.getD st.config.semanticTopK
  match embed [query] with
  | .error e => .error e
  | .ok qs =>
      match qs.head? with
      | none => .error "TypeError: cannot read properties of undefined"
      | some queryEmbedding =>
          match scoreUnitsSemantic P.sqrt queryEmbedding (jsMapValues st.units) with
          | .error e => .error e
          | .ok results =>
              .ok ((stableSortDesc (fun r => r.score) results).take k)

/-- A placeholder for the JavaScript `undefined` produced by an
out-of-range `unitsArray[index]`; unreachable while the BM25 documents
are aligned with the unit map (which `keywordSearch` re-establishes by
rebuilding when dirty). -/
def undefinedUnit : MemoryUnit :=
  { id := "", content := "", keywords := [], persons := [], entities := [],
    timestamp := none, location := none, topic := none, embedding := none }

/-- `HybridIndex.keywordSearch`: lazily rebuild the lexical index when
dirty, delegate to BM25 `topK`, and map document indices back to units.
Returns the results together with the (possibly rebuilt) index state. -/
def keywordSearch (P : JsPrims) (st : HybridIndex) (query : String)
    (topK : Option ℕ) : List SearchResult × HybridIndex :=
  let k := topK.getD st.config.keywordTopK
  let st' := if st.needsRebuild then rebuildLexicalIndex P st else st
  let unitsArray := jsMapValues st'.units
  (((st'.bm25.topK query k).map fun p =>
      ⟨unitsArray.getD p.1 undefinedUnit, p.2, .lexical⟩), st')

/-- `HybridIndex.structuredSearch`: linear scan, binary score `1.0`,
truncate. -/
def structuredSearch (P : JsPrims) (st : HybridIndex) (filter : QueryFilter)
    (topK : Option ℕ) : List SearchResult :=
  let k := topK.getD st.config.structuredTopK
  (((jsMapValues st.units).filter fun u => matchesFilter P u filter).map
      fun u => (⟨u, 1, .symbolic⟩ : SearchResult)).take k

/-- The candidate-merging core of `hybridSearch`: normalize the BM25
scores by `Math.max(...scores, 1)`, build the two per-id score maps,
union the candidate ids (semantic first, insertion order), and combine
with `computeHybridScore` (a unit missed by one layer scores `0` on
that axis; with no filter every candidate counts as a symbolic match). -/
def hybridCandidates (P : JsPrims) (cfg : IndexingConfig)
    (unitsMap : List (String × MemoryUnit)) (filter : Option QueryFilter)
    (semanticResults keywordResults : List SearchResult) :
    List SearchResult :=
  let maxBM25 := (keywordResults.map fun r => r.score).foldl max 1
  let semanticScores :=
    semanticResults.foldl (fun m r => jsMapSet m r.unit.id r.score) []
  let lexicalScores :=
    keywordResults.foldl (fun m r => jsMapSet m r.unit.id (r.score / maxBM25)) []
  let allUnitIds :=
    dedupFirst (jsMapKeys semanticScores ++ jsMapKeys lexicalScores)
  allUnitIds.filterMap fun unitId =>
    match jsMapGet unitsMap unitId with
    | none => none
    | some unit =>
        let semanticScore := jsMapGetD semanticScores unitId 0
        let lexicalScore := jsMapGetD lexicalScores unitId 0
        let matchesConstraints :=
          match filter with
          | some f => matchesFilter P unit f
          | none => true
        some (⟨unit,
            computeHybridScore semanticScore lexicalScore matchesConstraints
              cfg.semanticWeight cfg.lexicalWeight cfg.symbolicWeight,
            .hybrid⟩ : SearchResult)

/-- `HybridIndex.hybridSearch`: over-fetch `2·topK` candidates from the
semantic and lexical layers concurrently, merge them via
`hybridCandidates`, sort descending by hybrid score and truncate to
`topK`.  Returns the results together with the (possibly rebuilt) index
state. -/
def hybridSearch (P : JsPrims) (embed : EmbedFn) (st : HybridIndex)
    (query : String) (filter : Option QueryFilter) (topK : Option ℕ) :
    Except String (List SearchResult × HybridIndex) :=
  let k := topK.getD st.config.semanticTopK
  match semanticSearch P embed st query (some (k * 2)) with
  | .error e => .error e
  | .ok semanticResults =>
      let kw := keywordSearch P st query (some (k * 2))
      .ok ((stableSortDesc (fun r => r.score)
              (hybridCandidates P st.config kw.2.units filter semanticResults
                kw.1)).take k,
           kw.2)

/-! ## Stage 3: adaptive retrieval (`HybridRetriever`, `AnswerGenerator`) -/

structure RetrievalConfig : Type where
  baseK : ℕ
  complexityDelta : ℚ
  enablePlanning : Bool
  enableReflection : Bool
  maxReflectionRounds : ℕ
deriving DecidableEq

def DEFAULT_RETRIEVAL_CONFIG : RetrievalConfig :=
  { baseK := 3, complexityDelta := 2, enablePlanning := true,
    enableReflection := true, maxReflectionRounds := 2 }

/-- The LLM oracle (`LLMProvider.complete`).  Calls are numbered by a
global counter so that oracle round-trips can be counted; a call may
fail (the promise rejects). -/
structure Oracle : Type where
  complete : ℕ → String → Except String String

/-- The prompt built by `HybridRetriever.checkAdequacy`. -/
def adequacyPrompt (query contextStr : String) : String :=
  "Given this query and the available context, determine if there is sufficient information to answer.\n\nQuery: "
    ++ query ++ "\n\nAvailable Context:\n" ++ contextStr
    ++ "\n\nIs this context sufficient? Reply with ONLY \"yes\" or \"no\"."

/-- `HybridRetriever.checkAdequacy`: short-circuit to inadequate on no
units and to adequate on ten or more (no oracle call in either case);
otherwise one oracle call, an oracle failure counting as adequate.
Returns the verdict and the updated oracle-call counter. -/
def checkAdequacy (o : Oracle) (n : ℕ) (query : String)
    (contexts : List MemoryUnit) : Bool × ℕ :=
  if contexts.length = 0 then (false, n)
  else if 10 ≤ contexts.length then (true, n)
  else
    let contextStr :=
      String.intercalate "\n" ((contexts.take 5).map fun c => c.content)
    match o.complete n (adequacyPrompt query contextStr) with
    | .error _ => (true, n + 1)
    | .ok response => (strIncludes (lowerStr response) "yes", n + 1)

/-- The prompt built by `HybridRetriever.generateAdditionalQueries`. -/
def additionalQueriesPrompt (originalQuery contextSummary : String) : String :=
  "Original query: " ++ originalQuery ++ "\n\nCurrent context available:\n"
    ++ contextSummary
    ++ "\n\nWhat additional information might be needed? Generate 1-2 follow-up search queries that could help answer the original query. Return as JSON array of strings.\n\nExample: [\"meeting time with Alice\", \"location of the discussion\"]"

/-- `HybridRetriever.generateAdditionalQueries`: one oracle call; on an
oracle failure, unparseable output or a non-array value the result is
the empty list; otherwise the string elements of the array, at most
two.  Returns the queries and the updated oracle-call counter. -/
def generateAdditionalQueries (P : JsPrims) (o : Oracle) (n : ℕ)
    (originalQuery : String) (currentContexts : List MemoryUnit) :
    List String × ℕ :=
  let contextSummary :=
    String.intercalate "\n" ((currentContexts.take 3).map fun c => c.content)
  match o.complete n (additionalQueriesPrompt originalQuery contextSummary) with
  | .error _ => ([], n + 1)
  | .ok response =>
      match P.parseJSON (jsTrim response) with
      | .ok (.arr xs) =>
          ((xs.filterMap fun v =>
              match v with
              | .str s => some s
              | _ => none).take 2, n + 1)
      | .ok _ => ([], n + 1)
      | .error _ => ([], n + 1)

/-- The inner loop of `reflectionSearch`: run `hybridSearch(q, undefined, 3)`
for every proposed query and merge previously unseen units, deduplicated
by id.  An embedding-collaborator failure propagates. -/
def runAdditionalQueries (P : JsPrims) (embed : EmbedFn) :
    List String → HybridIndex → List MemoryUnit → List String →
    Except String (List MemoryUnit × List String × HybridIndex)
  | [], idx, allUnits, seenIds => .ok (allUnits, seenIds, idx)
  | q :: qs, idx, allUnits, seenIds =>
      match hybridSearch P embed idx q none (some 3) with
      | .error e => .error e
      | .ok (results, idx') =>
          let merged := results.foldl
            (fun acc r =>
              if r.unit.id ∈ acc.2 then acc
              else (acc.1 ++ [r.unit], r.unit.id :: acc.2))
            (allUnits, seenIds)
          runAdditionalQueries P embed qs idx' merged.1 merged.2

/-- The bounded reflection loop of `HybridRetriever.reflectionSearch`
(`for round = 0; round < maxReflectionRounds; round++`), with `fuel`
the number of rounds still allowed.  Returns the accumulated units, the
final index state, the oracle-call counter, and the number of loop
iterations whose body was entered. -/
def reflectionLoop (P : JsPrims) (embed : EmbedFn) (o : Oracle)
    (originalQuery : String) :
    ℕ → HybridIndex → List MemoryUnit → List String → ℕ →
    Except String (List MemoryUnit × HybridIndex × ℕ × ℕ)
  | 0, idx, allUnits, _, n => .ok (allUnits, idx, n, 0)
  | fuel + 1, idx, allUnits, seenIds, n =>
      let adequacy := checkAdequacy o n originalQuery allUnits
      if adequacy.1 then .ok (allUnits, idx, adequacy.2, 1)
      else
        let additional :=
          generateAdditionalQueries P o adequacy.2 originalQuery allUnits
        if additional.1.length = 0 then .ok (allUnits, idx, additional.2, 1)
        else
          match runAdditionalQueries P embed additional.1 idx allUnits seenIds with
          | .error e => .error e
          | .ok (allUnits', seenIds', idx') =>
              match reflectionLoop P embed o originalQuery fuel idx' allUnits'
                  seenIds' additional.2 with
              | .error e => .error e
              | .ok (u, ix, n', rounds) => .ok (u, ix, n', rounds + 1)

/-- `HybridRetriever.reflectionSearch`: seed the accumulator and the
seen-id set with the initial results and run the bounded loop. -/
def reflectionSearch (P : JsPrims) (embed : EmbedFn) (o : Oracle)
    (cfg : RetrievalConfig) (idx : HybridIndex) (originalQuery : String)
    (initialResults : List MemoryUnit) (n : ℕ) :
    Except String (List MemoryUnit × HybridIndex × ℕ × ℕ) :=
  reflectionLoop P embed o originalQuery cfg.maxReflectionRounds idx
    initialResults (initialResults.map fun u => u.id) n

/-! ## `AnswerGenerator` -/

/-- The structured `{reasoning, answer}` object parsed by
`completeJSON` against the answer schema. -/
structure AnswerObj : Type where
  reasoning : String
  answer : String

/-- The oracle as the `AnswerGenerator` sees it: a structured call
(`completeJSON`, which fails when the model's output does not conform
to the schema) and a plain completion.  Calls are numbered by a global
counter. -/
structure AnswerOracle : Type where
  completeJSON : ℕ → String → Except String AnswerObj
  complete : ℕ → String → Except String String

/-- The fixed no-evidence reply of `AnswerGenerator.generate`. -/
def insufficientInfoMsg : String :=
  "I do not have enough information in my memory to answer this question."

/-- The retrieval context consumed by the generator (abstract memories,
always empty in stage 3, are omitted). -/
structure RetrievalContext : Type where
  units : List MemoryUnit
  totalTokens : ℕ
  retrievalRationale : Option String

/-- `AnswerGenerator.formatContext`: one labeled block per unit,
omitting absent (or empty, per JavaScript truthiness) fields. -/
def formatContext (context : RetrievalContext) : String :=
  String.intercalate "\n\n" <|
    context.units.enum.map fun p =>
      let u := p.2
      let lines := ["[Context " ++ toString (p.1 + 1) ++ "]",
                    "Content: " ++ u.content]
      let lines := match u.timestamp with
        | some t => if !t.isEmpty then lines ++ ["Time: " ++ t] else lines
        | none => lines
      let lines := match u.location with
        | some l => if !l.isEmpty then lines ++ ["Location: " ++ l] else lines
        | none => lines
      let lines :=
        if 0 < u.persons.length then
          lines ++ ["Persons: " ++ String.intercalate ", " u.persons]
        else lines
      let lines :=
        if 0 < u.entities.length then
          lines ++ ["Entities: " ++ String.intercalate ", " u.entities]
        else lines
      let lines := match u.topic with
        | some t => if !t.isEmpty then lines ++ ["Topic: " ++ t] else lines
        | none => lines
      String.intercalate "\n" lines

/-- `AnswerGenerator.buildPrompt`. -/
def buildPrompt (query contextStr : String) : String :=
  "Answer the user\x27s question based on the provided context.\n\nUser Question: "
    ++ query ++ "\n\nRelevant Context:\n" ++ contextStr
    ++ "\n\nRequirements:\n1. First, think through the reasoning process\n2. Then provide a very CONCISE answer (short phrase about core information)\n3. Answer must be based ONLY on the provided context\n4. All dates in the response must be formatted as \x27DD Month YYYY\x27 when appropriate\n5. Return your response in JSON format\n\nOutput Format:\n\x7b\n  \"reasoning\": \"Brief explanation of your thought process\",\n  \"answer\": \"Concise answer in a short phrase\"\n\x7d\n\nExample:\nQuestion: \"When will they meet?\"\nContext: \"Alice suggested meeting Bob at 2025-11-16T14:00:00...\"\n\nOutput:\n\x7b\n  \"reasoning\": \"The context explicitly states the meeting time as 2025-11-16T14:00:00\",\n  \"answer\": \"16 November 2025 at 2:00 PM\"\n\x7d\n\nReturn ONLY the JSON, no other text."

/-- `AnswerGenerator.generate`: the fixed message, with no oracle call,
when the context holds no units; otherwise a structured call with a
plain-completion fallback (whose own failure propagates).  Returns the
answer (or the propagated error) and the updated oracle-call counter. -/
def generate (o : AnswerOracle) (n : ℕ) (query : String)
    (context : RetrievalContext) : Except String String × ℕ :=
  if context.units.length = 0 then (.ok insufficientInfoMsg, n)
  else
    let contextStr := formatContext context
    let prompt := buildPrompt query contextStr
    match o.completeJSON n prompt with
    | .ok response => (.ok response.answer, n + 1)
    | .error _ =>
        match o.complete (n + 1) prompt with
        | .ok response => (.ok response, n + 2)
        | .error e => (.error e, n + 2)

/-! ## Helper lemmas: the stable sort -/

theorem mem_insertByGe {α : Type} (key : α → ℚ) (x a : α) (l : List α) :
    a ∈ insertByGe key x l ↔ a = x ∨ a ∈ l := by
  induction l with
  | nil => simp [insertByGe]
  | cons y ys ih =>
      by_cases h : key y ≤ key x
      · rw [insertByGe, if_pos h]
        simp
      · rw [insertByGe, if_neg h]
        simp [ih, or_left_comm]

theorem length_insertByGe {α : Type} (key : α → ℚ) (x : α) (l : List α) :
    (insertByGe key x l).length = l.length + 1 := by
  induction l with
  | nil => rfl
  | cons y ys ih =>
      by_cases h : key y ≤ key x <;> simp [insertByGe, h, ih]

theorem pairwise_insertByGe {α : Type} (key : α → ℚ) (x : α) (l : List α)
    (hl : l.Pairwise fun a b => key b ≤ key a) :
    (insertByGe key x l).Pairwise fun a b => key b ≤ key a := by
  induction l with
  | nil => simp [insertByGe]
  | cons y ys ih =>
      rw [List.pairwise_cons] at hl
      by_cases h : key y ≤ key x
      · rw [insertByGe, if_pos h, List.pairwise_cons]
        refine ⟨?_, List.pairwise_cons.2 hl⟩
        intro z hz
        rcases List.mem_cons.1 hz with hz | hz
        · exact hz ▸ h
        · exact le_trans (hl.1 z hz) h
      · rw [insertByGe, if_neg h, List.pairwise_cons]
        refine ⟨?_, ih hl.2⟩
        intro z hz
        rcases (mem_insertByGe key x z ys).1 hz with hz | hz
        · exact hz ▸ le_of_not_le h
        · exact hl.1 z hz

theorem mem_stableSortDesc {α : Type} (key : α → ℚ) (a : α) (l : List α) :
    a ∈ stableSortDesc key l ↔ a ∈ l := by
  induction l with
  | nil => simp [stableSortDesc]
  | cons x xs ih =>
      simp [stableSortDesc, mem_insertByGe, ih]

theorem pairwise_stableSortDesc {α : Type} (key : α → ℚ) (l : List α) :
    (stableSortDesc key l).Pairwise fun a b => key b ≤ key a := by
  induction l with
  | nil => simp [stableSortDesc]
  | cons x xs ih => exact pairwise_insertByGe key x _ ih

theorem insertByGe_map {α β : Type} (h : α → β) (key1 : α → ℚ) (key2 : β → ℚ)
    (hk : ∀ a b : α, key2 (h a) ≤ key2 (h b) ↔ key1 a ≤ key1 b)
    (x : α) (l : List α) :
    insertByGe key2 (h x) (l.map h) = (insertByGe key1 x l).map h := by
  induction l with
  | nil => rfl
  | cons y ys ih =>
      by_cases hc : key1 y ≤ key1 x
      · simp [insertByGe, hc, (hk y x).2 hc]
      · have hc2 : ¬ key2 (h y) ≤ key2 (h x) := fun hle => hc ((hk y x).1 hle)
        simp [insertByGe, hc, hc2, ih]

theorem stableSortDesc_map {α β : Type} (h : α → β) (key1 : α → ℚ)
    (key2 : β → ℚ)
    (hk : ∀ a b : α, key2 (h a) ≤ key2 (h b) ↔ key1 a ≤ key1 b)
    (l : List α) :
    stableSortDesc key2 (l.map h) = (stableSortDesc key1 l).map h := by
  induction l with
  | nil => rfl
  | cons x xs ih => simp [stableSortDesc, ih, insertByGe_map h key1 key2 hk]

/-! ## Helper lemmas: the JavaScript map model -/

theorem jsMapGet_set_self {κ α : Type} [DecidableEq κ] (m : List (κ × α))
    (k : κ) (v : α) : jsMapGet (jsMapSet m k v) k = some v := by
  induction m with
  | nil => simp [jsMapSet, jsMapGet]
  | cons p rest ih =>
      by_cases h : p.1 = k
      · simp [jsMapSet, jsMapGet, h]
      · simp [jsMapSet, jsMapGet, h, ih]

theorem jsMapKeys_set {κ α : Type} [DecidableEq κ] (m : List (κ × α))
    (k : κ) (v : α) :
    jsMapKeys (jsMapSet m k v) =
      if k ∈ jsMapKeys m then jsMapKeys m else jsMapKeys m ++ [k] := by
  induction m with
  | nil => simp [jsMapSet, jsMapKeys]
  | cons p rest ih =>
      by_cases h : p.1 = k
      · simp [jsMapSet, jsMapKeys, h]
      · have hne : k ≠ p.1 := fun hk => h hk.symm
        rw [jsMapSet, if_neg h]
        simp only [jsMapKeys, List.map_cons] at ih ⊢
        rw [ih]
        by_cases hmem : k ∈ List.map Prod.fst rest
        · simp [hmem, hne]
        · simp [hmem, hne]

theorem nodup_jsMapKeys_set {κ α : Type} [DecidableEq κ] (m : List (κ × α))
    (k : κ) (v : α) (hm : (jsMapKeys m).Nodup) :
    (jsMapKeys (jsMapSet m k v)).Nodup := by
  rw [jsMapKeys_set]
  by_cases h : k ∈ jsMapKeys m
  · simpa [h]
  · simpa [h, List.nodup_append] using hm

theorem idInvariant_jsMapSet {κ : Type} [DecidableEq κ] {f : MemoryUnit → κ}
    (m : List (κ × MemoryUnit)) (k : κ) (v : MemoryUnit)
    (hm : ∀ p ∈ m, f p.2 = p.1) (hv : f v = k) :
    ∀ p ∈ jsMapSet m k v, f p.2 = p.1 := by
  induction m with
  | nil => simpa [jsMapSet]
  | cons q rest ih =>
      intro p hp
      by_cases h : q.1 = k
      · rw [jsMapSet, if_pos h] at hp
        rcases List.mem_cons.1 hp with hp | hp
        · simp [hp, hv]
        · exact hm p (List.mem_cons_of_mem q hp)
      · rw [jsMapSet, if_neg h] at hp
        rcases List.mem_cons.1 hp with hp | hp
        · exact hp ▸ hm q (List.mem_cons_self q rest)
        · exact ih (fun r hr => hm r (List.mem_cons_of_mem q hr)) p hp

theorem filter_values_of_get {κ : Type} [DecidableEq κ]
    (key : MemoryUnit → κ) (k : κ) (pred : MemoryUnit → Bool)
    (hpred : ∀ u, pred u = true ↔ key u = k)
    (m : List (κ × MemoryUnit)) (v : MemoryUnit)
    (hnd : (jsMapKeys m).Nodup) (hinv : ∀ p ∈ m, key p.2 = p.1)
    (hget : jsMapGet m k = some v) :
    (jsMapValues m).filter pred = [v] := by
  induction m with
  | nil => simp [jsMapGet] at hget
  | cons p rest ih =>
      have hidp : key p.2 = p.1 := hinv p (List.mem_cons_self p rest)
      rw [jsMapKeys, List.map_cons, List.nodup_cons] at hnd
      by_cases h : p.1 = k
      · rw [jsMapGet, if_pos h] at hget
        have hv : p.2 = v := by injection hget
        have hp : pred p.2 = true := (hpred p.2).2 (hidp.trans h)
        rw [jsMapValues, List.map_cons, List.filter_cons, if_pos hp, hv]
        have hnil : List.filter pred (List.map Prod.snd rest) = [] := by
          rw [List.filter_eq_nil_iff]
          intro u hu
          rcases List.mem_map.1 hu with ⟨q, hq, hqu⟩
          intro hup
          have hq1 : q.1 = k := by
            rw [← hinv q (List.mem_cons_of_mem p hq), hqu]
            exact (hpred u).1 hup
          refine hnd.1 ?_
          rw [h, ← hq1]
          exact List.mem_map_of_mem Prod.fst hq
        rw [hnil]
      · rw [jsMapGet, if_neg h] at hget
        have hp : ¬ pred p.2 = true := by
          rw [hpred]
          exact fun hk => h (hidp ▸ hk)
        rw [jsMapValues, List.map_cons, List.filter_cons, if_neg hp]
        exact ih hnd.2 (fun r hr => hinv r (List.mem_cons_of_mem p hr)) hget

theorem nodup_foldl_jsMapSet (l : List MemoryUnit)
    (m : List (String × MemoryUnit)) (hm : (jsMapKeys m).Nodup) :
    (jsMapKeys (l.foldl (fun m u => jsMapSet m u.id u) m)).Nodup := by
  induction l generalizing m with
  | nil => simpa
  | cons u us ih => exact ih _ (nodup_jsMapKeys_set m u.id u hm)

theorem idInvariant_foldl_jsMapSet (l : List MemoryUnit)
    (m : List (String × MemoryUnit))
    (hm : ∀ p ∈ m, p.2.id = p.1) :
    ∀ p ∈ l.foldl (fun m u => jsMapSet m u.id u) m, p.2.id = p.1 := by
  induction l generalizing m with
  | nil => exact hm
  | cons u us ih =>
      exact ih _ (idInvariant_jsMapSet m u.id u hm rfl)

/-! ## Concrete instances used as evaluation inputs -/

/-- Concrete runtime primitives: a logarithm model that returns `1` on
every argument, the identity as square-root model, a `JSON.parse` model
defined on the one literal used in the runs below, and a timestamp
parser that treats every string as an invalid date. -/
def exPrims : JsPrims :=
  { log := fun _ => 1, sqrt := fun q => q,
    parseJSON := fun s =>
      if s = "[\"q\"]" then .ok (.arr [.str "q"]) else .error "SyntaxError",
    parseTime := fun _ => none }

/-- An embedding collaborator that answers every text with the
one-dimensional vector `[1]`. -/
def exEmbed : EmbedFn := fun texts => .ok (texts.map fun _ => [1])

/-- An embedding collaborator whose batch call always rejects. -/
def failEmbed : EmbedFn := fun _ => .error "boom"

def exUnit : MemoryUnit :=
  { id := "u0", content := "a", keywords := [], persons := [], entities := [],
    timestamp := none, location := none, topic := none, embedding := some [1] }

def exUnitNoEmb : MemoryUnit :=
  { id := "h0", content := "hello", keywords := [], persons := [],
    entities := [], timestamp := none, location := none, topic := none,
    embedding := none }

def exPreEmbUnit : MemoryUnit :=
  { id := "p1", content := "pre", keywords := [], persons := [], entities := [],
    timestamp := none, location := none, topic := none, embedding := some [1] }

def emptyIdx : HybridIndex :=
  { units := [], bm25 := BM25Scorer.new, config := DEFAULT_INDEXING_CONFIG,
    needsRebuild := false }

def exIdx : HybridIndex :=
  { units := [("u0", exUnit)], bm25 := BM25Scorer.new,
    config := DEFAULT_INDEXING_CONFIG, needsRebuild := true }

def exIdxNoEmb : HybridIndex :=
  { units := [("h0", exUnitNoEmb)], bm25 := BM25Scorer.new,
    config := DEFAULT_INDEXING_CONFIG, needsRebuild := true }

/-- An oracle that judges every context inadequate ("no") and proposes
the JSON array `["q"]` whenever asked for follow-up queries (calls 1
and 3 of a run starting at counter 0). -/
def exOracleNo : Oracle :=
  { complete := fun n _ => .ok (if n = 1 ∨ n = 3 then "[\"q\"]" else "no") }

/-- An oracle whose every call rejects. -/
def failOracle : Oracle := { complete := fun _ _ => .error "ECONNRESET" }

/-- An answer oracle whose every call rejects. -/
def failAnswerOracle : AnswerOracle :=
  { completeJSON := fun _ _ => .error "x", complete := fun _ _ => .error "x" }

def emptyFilter : QueryFilter :=
  { persons := none, entities := none, timestampRange := none,
    location := none, topic := none }

/-- A filter constraining only the timestamp range (both bounds set). -/
def rangeOnlyFilter : QueryFilter :=
  { persons := none, entities := none,
    timestampRange :=
      some { start := some "2020-01-01T00:00:00Z",
             stop := some "2021-01-01T00:00:00Z" },
    location := none, topic := none }

/-! ## Claim C7 -/

/-- Claim C7: for every query, `generate` called with a context whose
units list is empty returns the fixed insufficient-information string
and performs zero oracle calls (the call counter is unchanged, so
neither `complete` nor `completeJSON` is invoked). -/
theorem generate_empty_units_fixed_reply (o : AnswerOracle) (n : ℕ)
    (query : String) (context : RetrievalContext)
    (h : context.units = []) :
    generate o n query context = (.ok insufficientInfoMsg, n) := by
  simp [generate, h]

theorem generate_empty_units_fixed_reply_witness :
    generate failAnswerOracle 0 "q" ⟨[], 0, none⟩ =
      (.ok insufficientInfoMsg, 0) :=
  generate_empty_units_fixed_reply failAnswerOracle 0 "q" ⟨[], 0, none⟩ rfl

/-! ## Claim C2 (corrected) -/

/-- Claim C2 counterexample: a unit with no timestamp, checked against
a filter whose `timestampRange` is set (both bounds present), *matches*
the filter — the range check is skipped, it does not fail. -/
theorem matchesFilter_no_timestamp_counterexample :
    exUnitNoEmb.timestamp = none ∧
    rangeOnlyFilter.timestampRange.isSome = true ∧
    matchesFilter exPrims exUnitNoEmb rangeOnlyFilter = true :=
  ⟨rfl, rfl, rfl⟩

/-- Claim C2, amended: for every unit with no timestamp, the
timestamp-range clause of `matchesFilter` is skipped — the unit
vacuously *passes* it (in particular a filter constraining only the
timestamp range matches the unit), and the absence of a timestamp does
not affect the evaluation of the other filter predicates. -/
theorem matchesFilter_no_timestamp_skips_range (P : JsPrims)
    (u : MemoryUnit) (f : QueryFilter) (h : u.timestamp = none) :
    matchesFilter P u f = matchesFilter P u { f with timestampRange := none } ∧
    matchesFilter P u
      { persons := none, entities := none,
        timestampRange := f.timestampRange, location := none,
        topic := none } = true := by
  constructor
  · cases hr : f.timestampRange <;> simp [matchesFilter, h]
  · cases hr : f.timestampRange <;> simp [matchesFilter, h]

theorem matchesFilter_no_timestamp_skips_range_witness :
    (matchesFilter exPrims exUnitNoEmb rangeOnlyFilter =
      matchesFilter exPrims exUnitNoEmb
        { rangeOnlyFilter with timestampRange := none }) ∧
    matchesFilter exPrims exUnitNoEmb
      { persons := none, entities := none,
        timestampRange := rangeOnlyFilter.timestampRange, location := none,
        topic := none } = true :=
  matchesFilter_no_timestamp_skips_range exPrims exUnitNoEmb rangeOnlyFilter rfl

/-! ## Claim C1 (corrected) -/

/-- Claim C1 counterexample: `addUnits` on a batch holding one unit that
already carries an embedding and one that does not, with a failing
embedding collaborator, throws the collaborator's error and upserts
*nothing*: the index stays empty, so the previously-embedded unit is
*not* upserted, contradicting the claim. -/
theorem addUnits_embed_failure_counterexample :
    addUnits failEmbed emptyIdx [exPreEmbUnit, exUnitNoEmb] = .error "boom" ∧
    getAllUnits (addUnitsRun failEmbed emptyIdx [exPreEmbUnit, exUnitNoEmb]) =
      [] :=
  ⟨rfl, rfl⟩

/-- Claim C1, amended: if the embedding collaborator fails for the
batch during `addUnits`, the call fails with that error and the index
is left completely unchanged — no unit of the call is partially
embedded, and *no* unit of the call (including the units that already
carried embeddings) is upserted. -/
theorem addUnits_embed_failure_all_or_nothing (embed : EmbedFn)
    (st : HybridIndex) (units : List MemoryUnit) (e : String)
    (hneed : 0 < (units.filter fun u => u.embedding.isNone).length)
    (hfail :
      embed ((units.filter fun u => u.embedding.isNone).map fun u => u.content) =
        .error e) :
    addUnits embed st units = .error e ∧ addUnitsRun embed st units = st := by
  refine ⟨?_, ?_⟩ <;> simp [addUnits, addUnitsRun, hneed, hfail]

theorem addUnits_embed_failure_all_or_nothing_witness :
    addUnits failEmbed emptyIdx [exUnitNoEmb] = .error "boom" ∧
    addUnitsRun failEmbed emptyIdx [exUnitNoEmb] = emptyIdx :=
  addUnits_embed_failure_all_or_nothing failEmbed emptyIdx [exUnitNoEmb]
    "boom" (by decide) rfl

/-! ## Claim C3 -/

/-- Claim C3: for every query, optional filter and requested `topK`,
a successful `hybridSearch` returns at most `topK` results, sorted
non-increasingly by score. -/
theorem hybridSearch_topK_sorted (P : JsPrims) (embed : EmbedFn)
    (st : HybridIndex) (query : String) (filter : Option QueryFilter)
    (k : ℕ) (res : List SearchResult) (st' : HybridIndex)
    (h : hybridSearch P embed st query filter (some k) = .ok (res, st')) :
    res.length ≤ k ∧ res.Pairwise fun a b => b.score ≤ a.score := by
  unfold hybridSearch at h
  simp only [Option.getD_some] at h
  rcases hs : semanticSearch P embed st query (some (k * 2)) with e | semRes <;>
    rw [hs] at h
  · exact absurd h (by simp)
  · rw [Except.ok.injEq, Prod.mk.injEq] at h
    rcases h with ⟨hres, _⟩
    rw [← hres]
    exact ⟨List.length_take_le _ _,
      List.Pairwise.sublist (List.take_sublist _ _)
        (pairwise_stableSortDesc _ _)⟩

theorem hybridSearch_topK_sorted_witness :
    hybridSearch exPrims exEmbed emptyIdx "a" none (some 3) =
      .ok ([], emptyIdx) ∧
    ([] : List SearchResult).length ≤ 3 ∧
    ([] : List SearchResult).Pairwise (fun a b => b.score ≤ a.score) :=
  ⟨rfl, hybridSearch_topK_sorted exPrims exEmbed emptyIdx "a" none 3 []
    emptyIdx rfl⟩

/-! ## Claim C9 -/

theorem scoreUnitsSemantic_hasEmbedding (sqrt : ℚ → ℚ) (qe : List ℚ)
    (us : List MemoryUnit) (rs : List SearchResult)
    (h : scoreUnitsSemantic sqrt qe us = .ok rs) :
    ∀ r ∈ rs, r.unit.embedding.isSome = true := by
  induction us generalizing rs with
  | nil =>
      rw [scoreUnitsSemantic, Except.ok.injEq] at h
      simp [← h]
  | cons u us ih =>
      rw [scoreUnitsSemantic] at h
      cases hu : u.embedding with
      | none =>
          simp only [hu] at h
          exact ih rs h
      | some emb =>
          simp only [hu] at h
          cases hc : cosineSimilarity sqrt qe emb with
          | error e => simp only [hc] at h; exact absurd h (by simp)
          | ok s =>
              simp only [hc] at h
              cases hrec : scoreUnitsSemantic sqrt qe us with
              | error e =>
                  simp only [hrec, Except.map] at h
                  exact absurd h (by simp)
              | ok rs' =>
                  simp only [hrec, Except.map, Except.ok.injEq] at h
                  intro r hr
                  rw [← h] at hr
                  rcases List.mem_cons.1 hr with hr | hr
                  · rw [hr]
                    simp [hu]
                  · exact ih rs' hrec r hr

/-- Claim C9: a memory unit with no embedding never appears in the
output of a successful `semanticSearch` (silent exclusion), while the
same unit can appear in the results of `keywordSearch`,
`structuredSearch` and `hybridSearch` (witnessed concretely). -/
theorem semanticSearch_excludes_unembedded :
    (∀ (P : JsPrims) (embed : EmbedFn) (st : HybridIndex) (query : String)
        (topK : Option ℕ) (res : List SearchResult),
        semanticSearch P embed st query topK = .ok res →
        ∀ r ∈ res, r.unit.embedding.isSome = true) ∧
    (exUnitNoEmb.embedding = none ∧
      exUnitNoEmb ∈
        (keywordSearch exPrims exIdxNoEmb "hello" (some 5)).1.map
          SearchResult.unit ∧
      exUnitNoEmb ∈
        (structuredSearch exPrims exIdxNoEmb emptyFilter (some 5)).map
          SearchResult.unit ∧
      ∃ res st',
        hybridSearch exPrims exEmbed exIdxNoEmb "hello" none (some 5) =
          .ok (res, st') ∧
        exUnitNoEmb ∈ res.map SearchResult.unit) := by
  constructor
  · intro P embed st query topK res h r hr
    rw [semanticSearch] at h
    cases he : embed [query] with
    | error e => simp only [he] at h; exact absurd h (by simp)
    | ok qs =>
        simp only [he] at h
        cases hq : qs.head? with
        | none => simp only [hq] at h; exact absurd h (by simp)
        | some qe =>
            simp only [hq] at h
            cases hsc : scoreUnitsSemantic P.sqrt qe (jsMapValues st.units) with
            | error e => simp only [hsc] at h; exact absurd h (by simp)
            | ok results =>
                simp only [hsc, Except.ok.injEq] at h
                rw [← h] at hr
                exact scoreUnitsSemantic_hasEmbedding P.sqrt qe _ results hsc r
                  ((mem_stableSortDesc _ r results).1
                    (List.mem_of_mem_take hr))
  · exact ⟨rfl, by decide, by decide, ⟨_, _, rfl, by decide⟩⟩

theorem semanticSearch_excludes_unembedded_witness :
    exUnit.embedding.isSome = true :=
  (semanticSearch_excludes_unembedded).1 exPrims exEmbed exIdx "a" (some 5)
    [⟨exUnit, 1, .semantic⟩] rfl ⟨exUnit, 1, .semantic⟩ (by simp)

/-! ## Claim C4 -/

theorem filterMap_eq_map_filterMap {α β γ : Type} (f : α → Option β)
    (g : α → Option γ) (h : γ → β) (hfg : ∀ x, f x = (g x).map h)
    (l : List α) : l.filterMap f = (l.filterMap g).map h := by
  induction l with
  | nil => rfl
  | cons x xs ih =>
      rw [List.filterMap_cons, List.filterMap_cons, hfg x]
      cases g x with
      | none => simpa using ih
      | some y => simpa using ih

theorem semanticSearch_config_irrelevant (P : JsPrims) (embed : EmbedFn)
    (st : HybridIndex) (query : String) (m : ℕ) (c : IndexingConfig) :
    semanticSearch P embed { st with config := c } query (some m) =
      semanticSearch P embed st query (some m) := by
  simp [semanticSearch]

theorem keywordSearch_config_results (P : JsPrims) (st : HybridIndex)
    (query : String) (m : ℕ) (c : IndexingConfig) :
    (keywordSearch P { st with config := c } query (some m)).1 =
      (keywordSearch P st query (some m)).1 ∧
    (keywordSearch P { st with config := c } query (some m)).2.units =
      (keywordSearch P st query (some m)).2.units := by
  by_cases h : st.needsRebuild <;>
    simp [keywordSearch, rebuildLexicalIndex, h]

theorem hybridCandidates_zero_gamma (P : JsPrims) (cfg : IndexingConfig)
    (unitsMap : List (String × MemoryUnit))
    (semanticResults keywordResults : List SearchResult) :
    hybridCandidates P cfg unitsMap none semanticResults keywordResults =
      (hybridCandidates P { cfg with symbolicWeight := 0 } unitsMap none
          semanticResults keywordResults).map
        fun r => { r with score := r.score + cfg.symbolicWeight } := by
  unfold hybridCandidates
  refine filterMap_eq_map_filterMap _ _ _ (fun uid => ?_) _
  cases jsMapGet unitsMap uid with
  | none => rfl
  | some u =>
      simp only [Option.map_some]
      have : ∀ s l : ℚ,
          computeHybridScore s l true cfg.semanticWeight cfg.lexicalWeight
              cfg.symbolicWeight =
            computeHybridScore s l true cfg.semanticWeight cfg.lexicalWeight 0 +
              cfg.symbolicWeight := by
        intro s l
        simp [computeHybridScore]
      rw [this]
      rfl

/-- Claim C4: with no filter, every candidate of `hybridSearch` gets
the symbolic bonus `γ`, so each hybrid score is
`α·semantic + β·lexical + γ`, and the returned ranking is exactly the
ranking produced with the symbolic term removed (`γ = 0`), each score
shifted up by `γ` — the uniform bonus never changes relative order. -/
theorem hybridSearch_no_filter_uniform_bonus :
    (∀ s l a b g : ℚ, computeHybridScore s l true a b g = a * s + b * l + g) ∧
    ∀ (P : JsPrims) (embed : EmbedFn) (st : HybridIndex) (query : String)
      (k : ℕ),
      (hybridSearch P embed st query none (some k)).map Prod.fst =
        ((hybridSearch P embed
              { st with config := { st.config with symbolicWeight := 0 } }
              query none (some k)).map Prod.fst).map
          (List.map fun r => { r with score := r.score + st.config.symbolicWeight }) := by
  constructor
  · intro s l a b g
    simp [computeHybridScore]
  · intro P embed st query k
    unfold hybridSearch
    simp only [Option.getD_some]
    rw [semanticSearch_config_irrelevant P embed st query (k * 2)
          { st.config with symbolicWeight := 0 }]
    cases hs : semanticSearch P embed st query (some (k * 2)) with
    | error e => simp [Except.map]
    | ok semanticResults =>
        simp only [Except.map]
        rw [Except.ok.injEq]
        rcases keywordSearch_config_results P st query (k * 2)
            { st.config with symbolicWeight := 0 } with ⟨hkw1, hkw2⟩
        rw [hkw1, hkw2]
        rw [hybridCandidates_zero_gamma]
        rw [stableSortDesc_map
              (fun r => { r with score := r.score + st.config.symbolicWeight })
              (fun r : SearchResult => r.score) (fun r : SearchResult => r.score)
              (fun a b => add_le_add_iff_right st.config.symbolicWeight)]
        rw [← List.map_take]

/-! ## Claim C5 -/

theorem addDocuments_avg_pos (jsLog : ℚ → ℚ) (s : BM25Scorer)
    (docs : List String) :
    0 < (BM25Scorer.addDocuments jsLog s docs).avgDocLength := by
  unfold BM25Scorer.addDocuments
  simp only
  by_cases h :
      (docs.map tokenize).length = 0 ∨
        ((docs.map tokenize).map List.length).sum = 0
  · rw [if_pos h]
    norm_num
  · rw [if_neg h]
    push_neg at h
    exact div_pos (by exact_mod_cast Nat.pos_of_ne_zero h.2)
      (by exact_mod_cast Nat.pos_of_ne_zero h.1)

theorem bm25TermScore_monotone (idfv : ℚ) (tf1 tf2 docLength : ℕ)
    (avg : ℚ) (havg : 0 < avg) (h : tf2 < tf1) :
    bm25TermScore (6/5) (3/4) idfv tf2 docLength avg ≤
      bm25TermScore (6/5) (3/4) idfv tf1 docLength avg := by
  unfold bm25TermScore
  by_cases hidf : 0 < idfv
  · have h1 : 0 < tf1 := lt_of_le_of_lt (Nat.zero_le _) h
    have hC : (0:ℚ) ≤ (6/5) * (1 - 3/4 + (3/4) * ((docLength : ℚ) / avg)) := by
      have hr : (0:ℚ) ≤ (docLength : ℚ) / avg :=
        div_nonneg (by positivity) havg.le
      nlinarith
    by_cases h2 : 0 < tf2
    · rw [if_pos ⟨h2, hidf⟩, if_pos ⟨h1, hidf⟩]
      have hd2 : (0:ℚ) <
          (tf2 : ℚ) + (6/5) * (1 - 3/4 + (3/4) * ((docLength : ℚ) / avg)) := by
        have : (1:ℚ) ≤ (tf2 : ℚ) := by exact_mod_cast h2
        linarith
      have hd1 : (0:ℚ) <
          (tf1 : ℚ) + (6/5) * (1 - 3/4 + (3/4) * ((docLength : ℚ) / avg)) := by
        have : (1:ℚ) ≤ (tf1 : ℚ) := by exact_mod_cast h1
        linarith
      rw [div_le_div_iff hd2 hd1]
      have hle : (tf2 : ℚ) ≤ (tf1 : ℚ) := by exact_mod_cast h.le
      nlinarith [mul_nonneg (mul_nonneg hidf.le hC) (sub_nonneg.2 hle)]
    · rw [if_neg (fun hc => h2 hc.1), if_pos ⟨h1, hidf⟩]
      apply div_nonneg
      · have : (0:ℚ) ≤ (tf1 : ℚ) := by positivity
        nlinarith
      · have : (0:ℚ) ≤ (tf1 : ℚ) := by positivity
        linarith
  · rw [if_neg (fun hc => hidf hc.2), if_neg (fun hc => hidf hc.2)]

/-- Claim C5: for two indexed documents of identical token length, if
one contains a given query term strictly more often, its BM25
contribution for that term (the summand of `BM25Scorer.score`, with the
scorer's default `k1 = 1.2`, `b = 0.75`) is at least the other's. -/
theorem bm25_term_frequency_monotone (jsLog : ℚ → ℚ) (s : BM25Scorer)
    (docs : List String) (st : BM25Scorer) (t : String)
    (d1 d2 : List String)
    (hk1 : s.k1 = 6/5) (hb : s.b = 3/4)
    (hst : st = BM25Scorer.addDocuments jsLog s docs)
    (hd1 : d1 ∈ st.documents) (hd2 : d2 ∈ st.documents)
    (hlen : d1.length = d2.length)
    (htf : jsMapGetD (termFreqOf d2) t 0 < jsMapGetD (termFreqOf d1) t 0) :
    bm25TermScore st.k1 st.b (jsMapGetD st.idf t 0)
        (jsMapGetD (termFreqOf d2) t 0) d2.length st.avgDocLength ≤
      bm25TermScore st.k1 st.b (jsMapGetD st.idf t 0)
        (jsMapGetD (termFreqOf d1) t 0) d1.length st.avgDocLength := by
  have hk1' : st.k1 = 6/5 := by
    rw [hst, BM25Scorer.addDocuments]
    exact hk1
  have hb' : st.b = 3/4 := by
    rw [hst, BM25Scorer.addDocuments]
    exact hb
  have havg : 0 < st.avgDocLength := by
    rw [hst]
    exact addDocuments_avg_pos jsLog s docs
  rw [hk1', hb', ← hlen]
  exact bm25TermScore_monotone _ _ _ _ _ havg htf

theorem bm25_term_frequency_monotone_witness :
    bm25TermScore
        (BM25Scorer.addDocuments (fun _ => 1) BM25Scorer.new ["a a", "a b"]).k1
        (BM25Scorer.addDocuments (fun _ => 1) BM25Scorer.new ["a a", "a b"]).b
        (jsMapGetD
          (BM25Scorer.addDocuments (fun _ => 1) BM25Scorer.new
              ["a a", "a b"]).idf "a" 0)
        (jsMapGetD (termFreqOf ["a", "b"]) "a" 0) (["a", "b"] : List String).length
        (BM25Scorer.addDocuments (fun _ => 1) BM25Scorer.new
            ["a a", "a b"]).avgDocLength ≤
      bm25TermScore
        (BM25Scorer.addDocuments (fun _ => 1) BM25Scorer.new ["a a", "a b"]).k1
        (BM25Scorer.addDocuments (fun _ => 1) BM25Scorer.new ["a a", "a b"]).b
        (jsMapGetD
          (BM25Scorer.addDocuments (fun _ => 1) BM25Scorer.new
              ["a a", "a b"]).idf "a" 0)
        (jsMapGetD (termFreqOf ["a", "a"]) "a" 0) (["a", "a"] : List String).length
        (BM25Scorer.addDocuments (fun _ => 1) BM25Scorer.new
            ["a a", "a b"]).avgDocLength :=
  bm25_term_frequency_monotone (fun _ => 1) BM25Scorer.new ["a a", "a b"] _
    "a" ["a", "a"] ["a", "b"] rfl rfl rfl (by decide) (by decide) rfl
    (by decide)

/-! ## Claim C6 -/

theorem addUnits_singleton (embed : EmbedFn) (st st' : HybridIndex)
    (u : MemoryUnit) (h : addUnits embed st [u] = .ok st') :
    ∃ u', st'.units = jsMapSet st.units u.id u' ∧ u'.id = u.id ∧
      u'.content = u.content := by
  cases hu : u.embedding with
  | some emb =>
      simp only [addUnits, List.filter, hu, Option.isNone, List.length_nil,
        lt_irrefl, if_false, Except.ok.injEq, List.foldl] at h
      exact ⟨u, by rw [← h], rfl, rfl⟩
  | none =>
      rw [addUnits] at h
      have hfil : ([u].filter fun x => x.embedding.isNone) = [u] := by
        simp [hu]
      rw [hfil] at h
      simp only [List.length_cons, List.length_nil, Nat.zero_add,
        Nat.zero_lt_one, if_true, List.map_cons, List.map_nil] at h
      cases he : embed [u.content] with
      | error e => simp only [he] at h; exact absurd h (by simp)
      | ok embs =>
          simp only [he, attachEmbeddings, hu, Option.isNone, List.foldl,
            Except.ok.injEq] at h
          exact ⟨{ u with embedding := embs.get? 0 }, by rw [← h], rfl, rfl⟩

theorem addUnits_ok_units_shape (embed : EmbedFn) (st st' : HybridIndex)
    (units : List MemoryUnit) (h : addUnits embed st units = .ok st') :
    ∃ l : List MemoryUnit,
      st'.units = l.foldl (fun m u => jsMapSet m u.id u) st.units := by
  rw [addUnits] at h
  by_cases hn : 0 < (units.filter fun u => u.embedding.isNone).length
  · rw [if_pos hn] at h
    cases he : embed ((units.filter fun u => u.embedding.isNone).map
        fun u => u.content) with
    | error e => simp only [he] at h; exact absurd h (by simp)
    | ok embs =>
        simp only [he, Except.ok.injEq] at h
        exact ⟨attachEmbeddings embs units 0, by rw [← h]⟩
  · rw [if_neg hn] at h
    simp only [Except.ok.injEq] at h
    exact ⟨units, by rw [← h]⟩

/-- Claim C6: unit ids stay unique across `addUnits` (the key list of
the unit map stays duplicate-free), and re-adding a unit with an
existing id overwrites in place: after two `addUnits` calls whose units
share an id but differ in content, `getAllUnits` holds exactly one unit
with that id, carrying the second content. -/
theorem addUnits_unique_ids_last_write_wins :
    (∀ (embed : EmbedFn) (st st' : HybridIndex) (units : List MemoryUnit),
        (jsMapKeys st.units).Nodup → addUnits embed st units = .ok st' →
        (jsMapKeys st'.units).Nodup) ∧
    (∀ (e1 e2 : EmbedFn) (st st1 st2 : HybridIndex) (u1 u2 : MemoryUnit),
        (jsMapKeys st.units).Nodup → (∀ p ∈ st.units, p.2.id = p.1) →
        addUnits e1 st [u1] = .ok st1 → addUnits e2 st1 [u2] = .ok st2 →
        u1.id = u2.id →
        ∃ u', ((getAllUnits st2).filter fun u => u.id == u2.id) = [u'] ∧
          u'.content = u2.content) := by
  constructor
  · intro embed st st' units hnd h
    rcases addUnits_ok_units_shape embed st st' units h with ⟨l, hl⟩
    rw [hl]
    exact nodup_foldl_jsMapSet l st.units hnd
  · intro e1 e2 st st1 st2 u1 u2 hnd hinv h1 h2 hid
    rcases addUnits_singleton e1 st st1 u1 h1 with ⟨u1', hs1, hid1, _⟩
    rcases addUnits_singleton e2 st1 st2 u2 h2 with ⟨u2', hs2, hid2, hct2⟩
    have hnd1 : (jsMapKeys st1.units).Nodup := by
      rw [hs1]
      exact nodup_jsMapKeys_set st.units u1.id u1' hnd
    have hinv1 : ∀ p ∈ st1.units, p.2.id = p.1 := by
      rw [hs1]
      exact idInvariant_jsMapSet st.units u1.id u1' hinv hid1
    have hnd2 : (jsMapKeys st2.units).Nodup := by
      rw [hs2]
      exact nodup_jsMapKeys_set st1.units u2.id u2' hnd1
    have hinv2 : ∀ p ∈ st2.units, p.2.id = p.1 := by
      rw [hs2]
      exact idInvariant_jsMapSet st1.units u2.id u2' hinv1 hid2
    have hget : jsMapGet st2.units u2.id = some u2' := by
      rw [hs2]
      exact jsMapGet_set_self st1.units u2.id u2'
    refine ⟨u2', ?_, hct2⟩
    exact filter_values_of_get MemoryUnit.id u2.id
      (fun u => u.id == u2.id) (fun u => by simp) st2.units u2' hnd2 hinv2 hget

def exPreEmbUnit2 : MemoryUnit :=
  { id := "p1", content := "second", keywords := [], persons := [],
    entities := [], timestamp := none, location := none, topic := none,
    embedding := some [1] }

def exIdxAfterOneAdd : HybridIndex :=
  { units := [("p1", exPreEmbUnit)], bm25 := BM25Scorer.new,
    config := DEFAULT_INDEXING_CONFIG, needsRebuild := true }

def exIdxAfterTwoAdds : HybridIndex :=
  { units := [("p1", exPreEmbUnit2)], bm25 := BM25Scorer.new,
    config := DEFAULT_INDEXING_CONFIG, needsRebuild := true }

theorem addUnits_unique_ids_last_write_wins_witness :
    ∃ u', ((getAllUnits exIdxAfterTwoAdds).filter
        fun u => u.id == exPreEmbUnit2.id) = [u'] ∧
      u'.content = exPreEmbUnit2.content :=
  (addUnits_unique_ids_last_write_wins).2 failEmbed failEmbed emptyIdx
    exIdxAfterOneAdd exIdxAfterTwoAdds exPreEmbUnit exPreEmbUnit2
    (by simp [emptyIdx, jsMapKeys]) (by simp [emptyIdx]) rfl rfl rfl

/-! ## Helper lemmas: the reflection loop -/

theorem checkAdequacy_counter_le (o : Oracle) (n : ℕ) (q : String)
    (c : List MemoryUnit) : (checkAdequacy o n q c).2 ≤ n + 1 := by
  unfold checkAdequacy
  by_cases h0 : c.length = 0
  · simp [h0]
  · by_cases h10 : 10 ≤ c.length
    · simp [h0, h10]
    · rw [if_neg h0, if_neg h10]
      dsimp only
      split <;> simp

theorem generateAdditionalQueries_counter (P : JsPrims) (o : Oracle) (n : ℕ)
    (q : String) (c : List MemoryUnit) :
    (generateAdditionalQueries P o n q c).2 = n + 1 := by
  unfold generateAdditionalQueries
  dsimp only
  split
  · rfl
  · split <;> rfl

theorem checkAdequacy_oracle_error (o : Oracle) (n : ℕ) (q : String)
    (c : List MemoryUnit) (e : String) (h0 : 0 < c.length)
    (h10 : c.length < 10)
    (he : o.complete n (adequacyPrompt q
        (String.intercalate "\n" ((c.take 5).map fun x => x.content))) =
      .error e) :
    checkAdequacy o n q c = (true, n + 1) := by
  unfold checkAdequacy
  dsimp only
  rw [if_neg (by omega), if_neg (by omega), he]

theorem generateAdditionalQueries_oracle_error (P : JsPrims) (o : Oracle)
    (n : ℕ) (q : String) (c : List MemoryUnit) (e : String)
    (he : o.complete n (additionalQueriesPrompt q
        (String.intercalate "\n" ((c.take 3).map fun x => x.content))) =
      .error e) :
    generateAdditionalQueries P o n q c = ([], n + 1) := by
  unfold generateAdditionalQueries
  dsimp only
  rw [he]

theorem generateAdditionalQueries_parse_error (P : JsPrims) (o : Oracle)
    (n : ℕ) (q : String) (c : List MemoryUnit) (s e : String)
    (hs : o.complete n (additionalQueriesPrompt q
        (String.intercalate "\n" ((c.take 3).map fun x => x.content))) =
      .ok s)
    (hp : P.parseJSON (jsTrim s) = .error e) :
    generateAdditionalQueries P o n q c = ([], n + 1) := by
  unfold generateAdditionalQueries
  dsimp only
  rw [hs]
  simp only [hp]

theorem reflectionLoop_stops_adequate (P : JsPrims) (embed : EmbedFn)
    (o : Oracle) (q : String) (fuel : ℕ) (idx : HybridIndex)
    (units : List MemoryUnit) (seen : List String) (n n1 : ℕ)
    (h : checkAdequacy o n q units = (true, n1)) :
    reflectionLoop P embed o q (fuel + 1) idx units seen n =
      .ok (units, idx, n1, 1) := by
  simp [reflectionLoop, h]

theorem reflectionLoop_stops_no_queries (P : JsPrims) (embed : EmbedFn)
    (o : Oracle) (q : String) (fuel : ℕ) (idx : HybridIndex)
    (units : List MemoryUnit) (seen : List String) (n n1 : ℕ)
    (ha : checkAdequacy o n q units = (false, n1))
    (hg : (generateAdditionalQueries P o n1 q units).1 = []) :
    reflectionLoop P embed o q (fuel + 1) idx units seen n =
      .ok (units, idx, n1 + 1, 1) := by
  have hgc := generateAdditionalQueries_counter P o n1 q units
  simp [reflectionLoop, ha, hg, hgc]

theorem reflectionLoop_bounds (P : JsPrims) (embed : EmbedFn) (o : Oracle)
    (q : String) :
    ∀ (fuel : ℕ) (idx : HybridIndex) (units : List MemoryUnit)
      (seen : List String) (n : ℕ) (us : List MemoryUnit)
      (ix : HybridIndex) (n' r : ℕ),
      reflectionLoop P embed o q fuel idx units seen n = .ok (us, ix, n', r) →
      r ≤ fuel ∧ n' ≤ n + 2 * fuel := by
  intro fuel
  induction fuel with
  | zero =>
      intro idx units seen n us ix n' r h
      simp only [reflectionLoop, Except.ok.injEq, Prod.mk.injEq] at h
      omega
  | succ fuel ih =>
      intro idx units seen n us ix n' r h
      have hcal := checkAdequacy_counter_le o n q units
      simp only [reflectionLoop] at h
      by_cases hb : (checkAdequacy o n q units).1 = true
      · rw [if_pos hb, Except.ok.injEq, Prod.mk.injEq, Prod.mk.injEq,
          Prod.mk.injEq] at h
        omega
      · rw [if_neg hb] at h
        have hgc := generateAdditionalQueries_counter P o
          (checkAdequacy o n q units).2 q units
        by_cases hq :
            (generateAdditionalQueries P o (checkAdequacy o n q units).2 q
              units).1.length = 0
        · rw [if_pos hq, Except.ok.injEq, Prod.mk.injEq, Prod.mk.injEq,
            Prod.mk.injEq] at h
          omega
        · rw [if_neg hq] at h
          cases hrun : runAdditionalQueries P embed
              (generateAdditionalQueries P o (checkAdequacy o n q units).2 q
                units).1 idx units seen with
          | error e => rw [hrun] at h; exact absurd h (by simp)
          | ok tr =>
              rcases tr with ⟨au, se, ix2⟩
              rw [hrun] at h
              dsimp only at h
              cases hrec : reflectionLoop P embed o q fuel ix2 au se
                  (generateAdditionalQueries P o (checkAdequacy o n q units).2
                    q units).2 with
              | error e => simp [hrec] at h
              | ok quad =>
                  rcases quad with ⟨u3, ix3, n3, rounds⟩
                  simp only [hrec, Except.ok.injEq, Prod.mk.injEq] at h
                  have hih := ih ix2 au se _ u3 ix3 n3 rounds hrec
                  omega

/-! ## Claim C8 (corrected) -/

/-- The oracle-call count and iteration count of a completed
reflection run. -/
def reflectionCallsOf
    (r : Except String (List MemoryUnit × HybridIndex × ℕ × ℕ)) :
    Option (ℕ × ℕ) :=
  match r with
  | .ok (_, _, n, rounds) => some (n, rounds)
  | .error _ => none

/-- Claim C8 counterexample: with the default configuration
(`maxReflectionRounds = 2`), an oracle that keeps answering
"inadequate" and keeps proposing one follow-up query drives
`reflectionSearch` to make `4` oracle round-trips — more than
`maxReflectionRounds` — over its `2` loop iterations (each iteration
makes one adequacy call *and* one proposal call). -/
theorem reflection_round_trips_counterexample :
    DEFAULT_RETRIEVAL_CONFIG.maxReflectionRounds = 2 ∧
    reflectionCallsOf
        (reflectionSearch exPrims exEmbed exOracleNo DEFAULT_RETRIEVAL_CONFIG
          exIdx "q" [exUnit] 0) = some (4, 2) ∧
    DEFAULT_RETRIEVAL_CONFIG.maxReflectionRounds < 4 :=
  ⟨rfl, by decide, by decide⟩

/-- Claim C8, amended: the reflection loop executes at most
`maxReflectionRounds` iterations, and — since each iteration makes at
most one adequacy call and one proposal call — at most
`2·maxReflectionRounds` oracle round-trips, regardless of how many
consecutive "inadequate" verdicts the oracle returns. -/
theorem reflectionSearch_bounded (P : JsPrims) (embed : EmbedFn) (o : Oracle)
    (cfg : RetrievalConfig) (idx : HybridIndex) (q : String)
    (initialResults us : List MemoryUnit) (ix : HybridIndex) (n n' r : ℕ)
    (h : reflectionSearch P embed o cfg idx q initialResults n =
      .ok (us, ix, n', r)) :
    r ≤ cfg.maxReflectionRounds ∧ n' ≤ n + 2 * cfg.maxReflectionRounds := by
  rw [reflectionSearch] at h
  exact reflectionLoop_bounds P embed o q cfg.maxReflectionRounds idx
    initialResults (initialResults.map fun u => u.id) n us ix n' r h

theorem reflectionSearch_bounded_witness :
    1 ≤ DEFAULT_RETRIEVAL_CONFIG.maxReflectionRounds ∧
    1 ≤ 0 + 2 * DEFAULT_RETRIEVAL_CONFIG.maxReflectionRounds :=
  reflectionSearch_bounded exPrims exEmbed failOracle
    DEFAULT_RETRIEVAL_CONFIG exIdx "q" [exUnit] [exUnit] exIdx 0 1 1 rfl

/-! ## Claim C10 -/

/-- Claim C10: an oracle failure during reflection never escapes.  If
the adequacy oracle call throws, `checkAdequacy` returns `true`
(adequate) and the reflection loop stops at that round with the units
unchanged; if the proposal oracle call throws, or its output is
unparseable, the proposal step yields the empty list, and an empty
proposal list stops the loop — in every case the loop returns normally
(`Except.ok`), so the exception never propagates out of `retrieve`. -/
theorem reflection_oracle_failure_degrades :
    (∀ (o : Oracle) (n : ℕ) (q : String) (c : List MemoryUnit) (e : String),
        0 < c.length → c.length < 10 →
        o.complete n (adequacyPrompt q (String.intercalate "\n"
            ((c.take 5).map fun x => x.content))) = .error e →
        checkAdequacy o n q c = (true, n + 1)) ∧
    (∀ (P : JsPrims) (o : Oracle) (n : ℕ) (q : String) (c : List MemoryUnit)
        (e : String),
        o.complete n (additionalQueriesPrompt q (String.intercalate "\n"
            ((c.take 3).map fun x => x.content))) = .error e →
        generateAdditionalQueries P o n q c = ([], n + 1)) ∧
    (∀ (P : JsPrims) (o : Oracle) (n : ℕ) (q : String) (c : List MemoryUnit)
        (s e : String),
        o.complete n (additionalQueriesPrompt q (String.intercalate "\n"
            ((c.take 3).map fun x => x.content))) = .ok s →
        P.parseJSON (jsTrim s) = .error e →
        generateAdditionalQueries P o n q c = ([], n + 1)) ∧
    (∀ (P : JsPrims) (embed : EmbedFn) (o : Oracle) (q : String) (fuel : ℕ)
        (idx : HybridIndex) (units : List MemoryUnit) (seen : List String)
        (n n1 : ℕ),
        (checkAdequacy o n q units = (true, n1) →
          reflectionLoop P embed o q (fuel + 1) idx units seen n =
            .ok (units, idx, n1, 1)) ∧
        (checkAdequacy o n q units = (false, n1) →
          (generateAdditionalQueries P o n1 q units).1 = [] →
          reflectionLoop P embed o q (fuel + 1) idx units seen n =
            .ok (units, idx, n1 + 1, 1))) :=
  ⟨checkAdequacy_oracle_error,
   generateAdditionalQueries_oracle_error,
   generateAdditionalQueries_parse_error,
   fun P embed o q fuel idx units seen n n1 =>
     ⟨reflectionLoop_stops_adequate P embed o q fuel idx units seen n n1,
      fun ha hg =>
        reflectionLoop_stops_no_queries P embed o q fuel idx units seen n n1
          ha hg⟩⟩

theorem reflection_oracle_failure_degrades_witness :
    checkAdequacy failOracle 0 "q" [exUnit] = (true, 1) ∧
    generateAdditionalQueries exPrims failOracle 0 "q" [exUnit] = ([], 1) ∧
    generateAdditionalQueries exPrims exOracleNo 0 "q" [exUnit] = ([], 1) ∧
    reflectionLoop exPrims exEmbed failOracle "q" 2 exIdx [exUnit] ["u0"] 0 =
      .ok ([exUnit], exIdx, 1, 1) :=
  ⟨(reflection_oracle_failure_degrades).1 failOracle 0 "q" [exUnit]
      "ECONNRESET" (by decide) (by decide) rfl,
   (reflection_oracle_failure_degrades).2.1 exPrims failOracle 0 "q" [exUnit]
      "ECONNRESET" rfl,
   (reflection_oracle_failure_degrades).2.2.1 exPrims exOracleNo 0 "q"
      [exUnit] "no" "SyntaxError" rfl rfl,
   ((reflection_oracle_failure_degrades).2.2.2 exPrims exEmbed failOracle "q"
      1 exIdx [exUnit] ["u0"] 0 1).1 (by decide)⟩

end SimpleMem
